import Mathlib

/-!
Shallow embedding of the RTEMS block-device disk registry (diskdevs.c) and
verification of the specified properties.

The C global state (disktab, disktab_size, and the malloc heap of
rtems_disk_device descriptors) is modelled as an explicit DiskState record.
Descriptor pointers are modelled as indices (DiskRef) into an allocation
arena, where a freed descriptor becomes none.  Unsigned 32-bit counters use
Nat with explicit reduction mod 2^32 where the C arithmetic can wrap.
Allocation and external-collaborator outcomes (malloc, realloc, strdup,
rtems_io_register_name, the driver ioctl result) are inputs to the modelled
operations, since the C code receives them from outside this module.
The mutex is modelled as always available: every claim is about the
sequential behaviour of one complete API call at a time.
-/

set_option maxRecDepth 8192

namespace DiskDevs

/-- Modulus of the 32-bit unsigned quantities (uses counters, minor/major
numbers, block numbers); the literal is 2 to the power 32. -/
def U32 : Nat := 4294967296

/-- Modulus of the 64-bit dev_t identifier; the literal is 2 to the power
64. -/
def U64 : Nat := 18446744073709551616

/-- Increment of an unsigned 32-bit counter (++x). -/
def incMod (n : Nat) : Nat := (n + 1) % U32

/-- Decrement of an unsigned 32-bit counter (--x), wrapping at zero as the C
unsigned arithmetic does.  Stated in branching form; decMod_eq_wrap below
shows it agrees with (n + 2^32 - 1) mod 2^32 on the value range of a
uint32. -/
def decMod (n : Nat) : Nat := if n = 0 then U32 - 1 else n - 1

/-- Subtraction of unsigned 32-bit counters (x -= y) with wraparound. -/
def subMod (a b : Nat) : Nat := (a + (U32 - b % U32)) % U32

/-- A dev_t device identifier: a 64-bit number holding major in the upper and
minor in the lower 32 bits. -/
abbrev DevT := Nat

/-- A descriptor reference: an index into the allocation arena, standing for
a rtems_disk_device pointer. -/
abbrev DiskRef := Nat

/-- rtems_filesystem_split_dev_t, major part. -/
def majorOf (dev : DevT) : Nat := dev / U32

/-- rtems_filesystem_split_dev_t, minor part. -/
def minorOf (dev : DevT) : Nat := dev % U32

/-- Builds a dev_t from a major and minor number. -/
def mkDev (major minor : Nat) : DevT := major * U32 + minor

/-- The rtems_disk_device descriptor record.  The ioctl handler is modelled
by a numeric identity (the C code only stores it, compares it with NULL and
invokes it externally); driver_data is likewise opaque. -/
structure DiskDevice where
  dev : DevT
  name : Option String
  uses : Nat
  deleted : Bool
  phys_dev : DiskRef
  start : Nat
  size : Nat
  block_size : Nat
  media_block_size : Nat
  ioctl : Nat
  driver_data : Nat
  capabilities : Nat
deriving DecidableEq

/-- rtems_disk_device_table: the minor-indexed inner table of one major
number.  The minor field is none when the C pointer is NULL; size is the
recorded entry count, kept separate from the list as in the C struct. -/
structure DiskTable where
  minor : Option (List (Option DiskRef))
  size : Nat
deriving DecidableEq

/-- The complete mutable state of the module: the outer table with its
recorded size, the descriptor arena (heap), and whether the diskdevs mutex
exists. -/
structure DiskState where
  disktab : List DiskTable
  disktab_size : Nat
  heap : List (Option DiskDevice)
  mutexValid : Bool
deriving DecidableEq

/-- RTEMS status codes returned by the modelled operations. -/
inductive SC where
  | RTEMS_SUCCESSFUL
  | RTEMS_NO_MEMORY
  | RTEMS_RESOURCE_IN_USE
  | RTEMS_UNSATISFIED
  | RTEMS_INVALID_ID
  | RTEMS_INVALID_NUMBER
  | RTEMS_INVALID_ADDRESS
deriving DecidableEq

open SC

/-- DISKTAB_INITIAL_SIZE. -/
def DISKTAB_INITIAL_SIZE : Nat := 8

/-- Outcomes of the allocation points and of the naming collaborator inside
one create call: realloc of the outer table, realloc of an inner table,
malloc of the descriptor, strdup of the name, rtems_io_register_name. -/
structure AllocFx where
  growMajorOk : Bool
  growMinorOk : Bool
  mallocOk : Bool
  strdupOk : Bool
  registerOk : Bool
deriving DecidableEq

/-- All allocations and the name registration succeed. -/
def allOk : AllocFx := ⟨true, true, true, true, true⟩

/-- Reads disktab[major]; out of range yields the zero entry, which the C
code never reads thanks to the disktab_size guards. -/
def tabGet (s : DiskState) (major : Nat) : DiskTable :=
  (s.disktab[major]?).getD ⟨none, 0⟩

/-- Writes disktab[major]. -/
def tabSet (s : DiskState) (major : Nat) (t : DiskTable) : DiskState :=
  { s with disktab := s.disktab.set major t }

/-- Reads disktab[major].minor[minor] as the stored descriptor pointer
(none for a NULL slot, and also for an unallocated inner table). -/
def slotGetAt (s : DiskState) (major minor : Nat) : Option DiskRef :=
  match (tabGet s major).minor with
  | none => none
  | some l => (l[minor]?).join

/-- Writes disktab[major].minor[minor]. -/
def slotSetAt (s : DiskState) (major minor : Nat) (v : Option DiskRef) :
    DiskState :=
  let t := tabGet s major
  match t.minor with
  | none => s
  | some l => tabSet s major ⟨some (l.set minor v), t.size⟩

/-- Dereferences a descriptor pointer: none when the arena has no live
descriptor at this reference (freed memory). -/
def heapGet (s : DiskState) (r : DiskRef) : Option DiskDevice :=
  (s.heap[r]?).join

/-- Updates the descriptor a live reference points to. -/
def heapModify (s : DiskState) (r : DiskRef) (f : DiskDevice → DiskDevice) :
    DiskState :=
  match s.heap[r]? with
  | some (some d) => { s with heap := s.heap.set r (some (f d)) }
  | _ => s

/-- free() of a descriptor: the arena entry becomes none. -/
def heapFree (s : DiskState) (r : DiskRef) : DiskState :=
  { s with heap := s.heap.set r none }

/-- get_disk_entry: table lookup guarded by the recorded sizes; a live,
not-deleted descriptor gets its use count incremented and is returned. -/
def get_disk_entry (s : DiskState) (dev : DevT) : Option DiskRef × DiskState :=
  let major := majorOf dev
  let minor := minorOf dev
  if major < s.disktab_size then
    let dtab := tabGet s major
    if minor < dtab.size ∧ dtab.minor.isSome then
      match slotGetAt s major minor with
      | some r =>
        match heapGet s r with
        | some dd =>
          if dd.deleted = false then
            (some r, heapModify s r fun d => { d with uses := incMod d.uses })
          else (none, s)
        | none => (none, s)
      | none => (none, s)
    else (none, s)
  else (none, s)

/-- The realloc of the outer table to new_size entries followed by the
memset of the added tail to zero (NULL minor pointer, size 0). -/
def extendTab (s : DiskState) (new_size : Nat) : DiskState :=
  { s with
    disktab := s.disktab
      ++ List.replicate (new_size - s.disktab_size) ⟨none, 0⟩,
    disktab_size := new_size }

/-- The first stage of create_disk_table_entry: the realloc and memset of
the outer table when major is beyond disktab_size.  none models a NULL
return from realloc, which leaves the original table in place. -/
def growMajorStage (s : DiskState) (major : Nat) (ok : Bool) :
    Option DiskState :=
  if s.disktab_size ≤ major then
    if ok then
      let doubled := 2 * s.disktab_size
      let new_size := if doubled ≤ major then major + 1 else doubled
      some (extendTab s new_size)
    else none
  else some s

/-- The second stage of create_disk_table_entry: the realloc and memset of
the inner table of the given major number when it is missing or too small.
The Bool result is false when the realloc fails, in which case the state of
the first stage is kept, as in the C code. -/
def growMinorStage (s1 : DiskState) (major minor : Nat) (ok : Bool) :
    DiskState × Bool :=
  let dtab := tabGet s1 major
  if dtab.minor.isNone ∨ dtab.size ≤ minor then
    if ok then
      let old_size := dtab.size
      let base := if old_size = 0 then DISKTAB_INITIAL_SIZE else 2 * old_size
      let new_size := if base ≤ minor then minor + 1 else base
      let newList := dtab.minor.getD [] ++ List.replicate (new_size - old_size) none
      (tabSet s1 major ⟨some newList, new_size⟩, true)
    else (s1, false)
  else (s1, true)

/-- create_disk_table_entry: grows the outer and inner tables as needed.
Returns the updated state and whether the entry now exists. -/
def create_disk_table_entry (s : DiskState) (dev : DevT)
    (growMajorOk growMinorOk : Bool) : DiskState × Bool :=
  let major := majorOf dev
  let minor := minorOf dev
  match growMajorStage s major growMajorOk with
  | none => (s, false)
  | some s1 => growMinorStage s1 major minor growMinorOk

/-- The descriptor as create_disk builds it.  The fields beyond dev, name,
uses and deleted are uninitialized in the C code (the callers set them);
they are modelled as zero here and overwritten by the callers. -/
def blankDisk (dev : DevT) (name : Option String) : DiskDevice :=
  { dev := dev, name := name, uses := 0, deleted := false,
    phys_dev := 0, start := 0, size := 0, block_size := 0,
    media_block_size := 0, ioctl := 0, driver_data := 0,
    capabilities := 0 }

/-- create_disk: allocates the table slot, checks it is free, allocates and
installs a fresh descriptor. -/
def create_disk (s : DiskState) (dev : DevT) (name : Option String)
    (fx : AllocFx) : DiskState × SC × Option DiskRef :=
  let (s1, ok) := create_disk_table_entry s dev fx.growMajorOk fx.growMinorOk
  if ok = false then (s1, RTEMS_NO_MEMORY, none)
  else if (slotGetAt s1 (majorOf dev) (minorOf dev)).isSome then
    (s1, RTEMS_RESOURCE_IN_USE, none)
  else if fx.mallocOk = false then (s1, RTEMS_NO_MEMORY, none)
  else if name.isSome && !fx.strdupOk then (s1, RTEMS_NO_MEMORY, none)
  else if name.isSome && !fx.registerOk then (s1, RTEMS_UNSATISFIED, none)
  else
    let r := s1.heap.length
    let s2 := { s1 with heap := s1.heap ++ [some (blankDisk dev name)] }
    (slotSetAt s2 (majorOf dev) (minorOf dev) (some r), RTEMS_SUCCESSFUL, some r)

/-- is_physical_disk: pointer identity of the descriptor with its own
phys_dev field. -/
def is_physical_disk (r : DiskRef) (dd : DiskDevice) : Bool :=
  dd.phys_dev = r

/-- rtems_disk_create_phys.  capRet and capVal model the return value of the
driver capability ioctl and the value it stores into dd.capabilities. -/
def rtems_disk_create_phys (s : DiskState) (dev : DevT)
    (block_size block_count : Nat) (handler : Option Nat) (capRet : Int)
    (capVal : Nat) (driver_data : Nat) (name : Option String) (fx : AllocFx) :
    DiskState × SC :=
  if handler.isNone then (s, RTEMS_INVALID_ADDRESS)
  else if block_size = 0 then (s, RTEMS_INVALID_NUMBER)
  else
    let (s1, sc, rd) := create_disk s dev name fx
    match rd with
    | none => (s1, sc)
    | some r =>
      let s2 := heapModify s1 r fun d =>
        { d with phys_dev := r, start := 0, size := block_count,
                 block_size := block_size, media_block_size := block_size,
                 ioctl := handler.getD 0, driver_data := driver_data,
                 capabilities := if capRet < 0 then 0 else capVal }
      (s2, RTEMS_SUCCESSFUL)

/-- rtems_disk_create_log.  The end block is computed in 32-bit arithmetic
as in the C code, so begin_block + block_count can wrap. -/
def rtems_disk_create_log (s : DiskState) (dev phys : DevT)
    (begin_block block_count : Nat) (name : Option String) (fx : AllocFx) :
    DiskState × SC :=
  let end_block := (begin_block + block_count) % U32
  let (pd, s1) := get_disk_entry s phys
  match pd with
  | none => (s1, RTEMS_INVALID_ID)
  | some p =>
    match heapGet s1 p with
    | none => (s1, RTEMS_INVALID_ID)
    | some pdd =>
      if is_physical_disk p pdd = false then
        (heapModify s1 p fun d => { d with uses := decMod d.uses },
         RTEMS_INVALID_ID)
      else if pdd.size ≤ begin_block ∨ end_block ≤ begin_block
          ∨ pdd.size < end_block then
        (heapModify s1 p fun d => { d with uses := decMod d.uses },
         RTEMS_INVALID_NUMBER)
      else
        let (s2, sc, rd) := create_disk s1 dev name fx
        match rd with
        | none =>
          (heapModify s2 p fun d => { d with uses := decMod d.uses }, sc)
        | some r =>
          let s3 := heapModify s2 r fun d =>
            { d with phys_dev := p, start := begin_block, size := block_count,
                     block_size := pdd.block_size,
                     media_block_size := pdd.block_size,
                     ioctl := pdd.ioctl, driver_data := pdd.driver_data }
          (s3, RTEMS_SUCCESSFUL)

/-- free_disk_device: the deletion ioctl notification, the unlink and the
free of the name act outside the modelled state; the descriptor memory is
released. -/
def free_disk_device (s : DiskState) (r : DiskRef) : DiskState :=
  heapFree s r

/-- The slot positions the cleanup sweep visits, in the order of the two
nested C loops.  The sweep never changes any table size, so the bounds read
while iterating are those of the initial state. -/
def sweepLocs (s : DiskState) : List (Nat × Nat) :=
  (List.range s.disktab_size).flatMap fun M =>
    (List.range (tabGet s M).size).map fun m => (M, m)

/-- One iteration of the cleanup sweep over slot (M, m): a live descriptor
of the deleted physical disk (other than the physical disk itself) is freed
and its slot cleared when unused, otherwise marked deleted. -/
def sweepOne (dev : DevT) (p : DiskRef) (acc : DiskState × Nat)
    (loc : Nat × Nat) : DiskState × Nat :=
  let (s, cnt) := acc
  match slotGetAt s loc.1 loc.2 with
  | none => (s, cnt)
  | some r =>
    match heapGet s r with
    | none => (s, cnt)
    | some dd =>
      match heapGet s dd.phys_dev with
      | none => (s, cnt)
      | some ph =>
        if ph.dev = dev ∧ r ≠ p then
          if dd.uses = 0 then
            (free_disk_device (slotSetAt s loc.1 loc.2 none) r, cnt + 1)
          else
            (heapModify s r fun d => { d with deleted := true }, cnt)
        else (s, cnt)

/-- rtems_disk_cleanup. -/
def rtems_disk_cleanup (s : DiskState) (disk_to_remove : DiskRef) :
    DiskState :=
  match heapGet s disk_to_remove with
  | none => s
  | some dtr =>
    let p := dtr.phys_dev
    match heapGet s p with
    | none => s
    | some pdd =>
      if pdd.deleted then
        let swept := (sweepLocs s).foldl (sweepOne pdd.dev p) (s, 0)
        let s2 := heapModify swept.1 p fun d =>
          { d with uses := subMod d.uses swept.2 }
        match heapGet s2 p with
        | some pdd2 =>
          if pdd2.uses = 0 then
            free_disk_device
              (slotSetAt s2 (majorOf pdd2.dev) (minorOf pdd2.dev) none) p
          else s2
        | none => s2
      else
        if dtr.uses = 0 then
          let s2 := heapModify s p fun d => { d with uses := decMod d.uses }
          free_disk_device
            (slotSetAt s2 (majorOf dtr.dev) (minorOf dtr.dev) none)
            disk_to_remove
        else s

/-- rtems_disk_delete. -/
def rtems_disk_delete (s : DiskState) (dev : DevT) : DiskState × SC :=
  let (dd, s1) := get_disk_entry s dev
  match dd with
  | none => (s1, RTEMS_INVALID_ID)
  | some r =>
    let s2 := heapModify s1 r fun d =>
      { d with uses := decMod d.uses, deleted := true }
    (rtems_disk_cleanup s2 r, RTEMS_SUCCESSFUL)

/-- rtems_disk_obtain: both the interrupt-disabled fast path and the
mutex-protected slow path perform get_disk_entry; sequentially they are the
same function. -/
def rtems_disk_obtain (s : DiskState) (dev : DevT) :
    Option DiskRef × DiskState :=
  get_disk_entry s dev

/-- rtems_disk_release: decrements the use count and, when it reached zero
on a descriptor marked deleted, invokes rtems_disk_delete on its device
identifier.  Always returns RTEMS_SUCCESSFUL. -/
def rtems_disk_release (s : DiskState) (r : DiskRef) : DiskState × SC :=
  match heapGet s r with
  | none => (s, RTEMS_SUCCESSFUL)
  | some dd =>
    let dev := dd.dev
    let uses := decMod dd.uses
    let deleted := dd.deleted
    let s1 := heapModify s r fun d => { d with uses := uses }
    if uses = 0 ∧ deleted = true then
      ((rtems_disk_delete s1 dev).1, RTEMS_SUCCESSFUL)
    else (s1, RTEMS_SUCCESSFUL)

/-- Result of rtems_disk_next: a found descriptor, the NULL end-of-table
return, an undefined read (inner index at or past the recorded size, or an
access through a NULL inner table pointer), or exhausted fuel. -/
inductive NextRes where
  | found (r : DiskRef)
  | nil
  | undef
  | spin
deriving DecidableEq

/-- The while loop of rtems_disk_next.  The C comparison is minor > size, so
minor = size falls through to the read of minor[minor], one past the end of
the inner table; that read, and any read through a NULL inner table, is
modelled as NextRes.undef. -/
def nextLoop (s : DiskState) : Nat → Nat → Nat → NextRes
  | 0, _, _ => .spin
  | fuel + 1, major, minor =>
    let dtab := tabGet s major
    if dtab.size < minor then
      let major2 := major + 1
      if s.disktab_size ≤ major2 then .nil
      else nextLoop s fuel major2 0
    else
      match dtab.minor with
      | none => .undef
      | some l =>
        match l[minor]? with
        | none => .undef
        | some none => nextLoop s fuel major (minor + 1)
        | some (some r) => .found r

/-- rtems_disk_next. -/
def rtems_disk_next (s : DiskState) (dev : DevT) (fuel : Nat) : NextRes :=
  let dev2 := (dev + 1) % U64
  let major := majorOf dev2
  let minor := minorOf dev2
  if s.disktab_size ≤ major then .nil
  else nextLoop s fuel major minor

/-- rtems_disk_io_initialize.  callocOk, semOk and bdbufOk are the outcomes
of the initial table allocation, the semaphore creation and the buffering
cache initialization.  A freed or never-allocated table is modelled as the
empty list. -/
def rtems_disk_io_init (s : DiskState) (callocOk semOk bdbufOk : Bool) :
    DiskState × SC :=
  if 0 < s.disktab_size then (s, RTEMS_SUCCESSFUL)
  else if callocOk = false then ({ s with disktab := [] }, RTEMS_NO_MEMORY)
  else if semOk = false then ({ s with disktab := [] }, RTEMS_NO_MEMORY)
  else if bdbufOk = false then
    ({ s with disktab := [], mutexValid := false }, RTEMS_UNSATISFIED)
  else
    ({ s with disktab := List.replicate DISKTAB_INITIAL_SIZE ⟨none, 0⟩,
              disktab_size := DISKTAB_INITIAL_SIZE, mutexValid := true },
     RTEMS_SUCCESSFUL)

/-- The state before rtems_disk_io_initialize is ever called. -/
def emptyState : DiskState := ⟨[], 0, [], false⟩

/-- The registry state right after a successful first initialization. -/
def initState : DiskState := (rtems_disk_io_init emptyState true true true).1

/-- Consistency of one inner table: a NULL minor array has recorded size
zero, and an allocated minor array has as many cells as the recorded size.
The C code maintains this because the array and the size field are updated
together. -/
def innerWF (t : DiskTable) : Prop :=
  match t.minor with
  | none => t.size = 0
  | some l => l.length = t.size

instance (t : DiskTable) : Decidable (innerWF t) := by
  unfold innerWF; split <;> infer_instance

/-- Well-formedness of the table state: the outer list has exactly
disktab_size entries and every inner table is consistent. -/
def WF (s : DiskState) : Prop :=
  s.disktab.length = s.disktab_size ∧ ∀ M < s.disktab_size, innerWF (tabGet s M)

instance (s : DiskState) : Decidable (WF s) := by
  unfold WF; infer_instance

/-- The descriptor of the physical disk of the scenario family: identifier
(0, 0), S blocks of block size 512, handler 1, and the given use count. -/
def physDesc (S uses : Nat) : DiskDevice :=
  { dev := 0, name := none, uses := uses, deleted := false,
    phys_dev := 0, start := 0, size := S, block_size := 512,
    media_block_size := 512, ioctl := 1, driver_data := 0,
    capabilities := 0 }

/-- A freshly initialized registry holding one physical disk with
identifier (0, 0) and S blocks of size 512. -/
def physFam (S : Nat) : DiskState :=
  (rtems_disk_create_phys initState 0 512 S (some 1) 0 0 0 none allOk).1

/-- physFam with the use count of the physical disk raised to one, as it is
while rtems_disk_create_log holds its reference. -/
def physFamInc (S : Nat) : DiskState :=
  { physFam S with heap := [some (physDesc S 1)] }

/-- The state after create_disk has installed the blank logical descriptor
at identifier (0, 1) inside rtems_disk_create_log on physFam. -/
def logCreatedState (S : Nat) : DiskState :=
  { disktab := ⟨some [some 0, some 1, none, none, none, none, none, none], 8⟩ ::
      List.replicate 7 ⟨none, 0⟩,
    disktab_size := 8,
    heap := [some (physDesc S 1), some (blankDisk 1 none)],
    mutexValid := true }

/-- physFam S extended with a logical disk at identifier (0, 1) covering
blocks b to b + c of the physical disk. -/
def logFam (S b c : Nat) : DiskState :=
  { disktab := ⟨some [some 0, some 1, none, none, none, none, none, none], 8⟩ ::
      List.replicate 7 ⟨none, 0⟩,
    disktab_size := 8,
    heap := [some (physDesc S 1),
      some { dev := 1, name := none, uses := 0, deleted := false,
             phys_dev := 0, start := b, size := c, block_size := 512,
             media_block_size := 512, ioctl := 1, driver_data := 0,
             capabilities := 0 }],
    mutexValid := true }

/-- C1 scenario, step 1: one physical disk at (0, 0) with 1000 blocks. -/
def c1Created : DiskState := physFam 1000

/-- C1 scenario, step 2: the caller obtains the disk. -/
def c1Obtained : Option DiskRef × DiskState := rtems_disk_obtain c1Created 0

/-- C1 scenario, step 3: the disk is deleted while the reference from step
2 is still outstanding. -/
def c1Deleted : DiskState × SC := rtems_disk_delete c1Obtained.2 0

/-- C1 scenario, step 4: the outstanding reference is released. -/
def c1Released : DiskState × SC := rtems_disk_release c1Deleted.1 0

/-- C2 scenario: physical disk at (0, 0) plus logical children at (0, 1)
and (0, 2), both obtained, then the physical disk is deleted. -/
def c2Children : DiskState :=
  (rtems_disk_create_log
    ((rtems_disk_create_log (physFam 1000) 1 0 0 10 none allOk).1)
    2 0 10 10 none allOk).1

/-- C2 scenario with both children obtained. -/
def c2Obtained : DiskState :=
  (rtems_disk_obtain ((rtems_disk_obtain c2Children 1).2) 2).2

/-- C2 scenario after rtems_disk_delete of the physical disk. -/
def c2AfterDelete : DiskState × SC := rtems_disk_delete c2Obtained 0

/-- C2 scenario after the two children are released. -/
def c2AfterReleases : DiskState :=
  (rtems_disk_release ((rtems_disk_release c2AfterDelete.1 1).1) 2).1

/-- C3 scenario: one live physical disk at identifier (0, 1). -/
def c3OneDisk : DiskState :=
  (rtems_disk_create_phys initState 1 512 100 (some 1) 0 0 0 none allOk).1

/-- C3 scenario: the disk at (0, 1) obtained and then deleted, leaving a
deleted descriptor in its slot. -/
def c3DeletedInSlot : DiskState :=
  (rtems_disk_delete ((rtems_disk_obtain c3OneDisk 1).2) 1).1

/-- Justification of the branching form of decMod: on the value range of a
uint32 it is exactly the wrapping decrement. -/
theorem decMod_eq_wrap (n : Nat) (h : n < U32) :
    decMod n = (n + (U32 - 1)) % U32 := by
  unfold decMod U32 at *
  split <;> omega

/-- C1.  The claim says that obtain, then a successful delete, then release
of the obtained descriptor reclaims the descriptor and clears its table
slot.  On the code this fails: the delete that rtems_disk_release triggers
calls get_disk_entry, which skips descriptors whose deleted flag is set, so
it returns RTEMS_INVALID_ID and reclaims nothing.  This theorem runs the
scenario on a fresh registry with one physical disk at (0, 0): the create,
obtain and delete succeed; while the use count is still positive after the
delete the memory is indeed not reclaimed; after the release the use count
is zero, a subsequent obtain returns none, but the table slot still holds
the descriptor and the descriptor memory is never freed, contradicting the
reclamation part of the claim. -/
theorem C1_deferred_reclamation_never_happens :
    (rtems_disk_create_phys initState 0 512 1000 (some 1) 0 0 0 none allOk).2
      = RTEMS_SUCCESSFUL ∧
    c1Obtained.1 = some 0 ∧
    (heapGet c1Obtained.2 0).map DiskDevice.uses = some 1 ∧
    c1Deleted.2 = RTEMS_SUCCESSFUL ∧
    (heapGet c1Deleted.1 0).map DiskDevice.uses = some 1 ∧
    (heapGet c1Deleted.1 0).map DiskDevice.deleted = some true ∧
    c1Released.2 = RTEMS_SUCCESSFUL ∧
    (rtems_disk_obtain c1Released.1 0).1 = none ∧
    slotGetAt c1Released.1 0 0 = some 0 ∧
    (heapGet c1Released.1 0).map DiskDevice.uses = some 0 ∧
    (heapGet c1Released.1 0).map DiskDevice.deleted = some true ∧
    (rtems_disk_delete c1Released.1 0).2 = RTEMS_INVALID_ID := by
  decide

/-- C2 counterexample.  The claim says each logical child of a deleted
physical disk stays obtainable until the child is released.  In the
concrete cascade state (physical disk at (0, 0) deleted while its two
children at (0, 1) and (0, 2) are still obtained), obtain on child (0, 1)
returns none, because get_disk_entry skips descriptors marked deleted.  So
the claim as stated is false on the code. -/
theorem C2_children_not_obtainable :
    c2AfterDelete.2 = RTEMS_SUCCESSFUL ∧
    (heapGet c2AfterDelete.1 1).map DiskDevice.deleted = some true ∧
    (rtems_disk_obtain c2AfterDelete.1 1).1 = none := by
  decide

/-- C2 amended.  Deleting a physical disk with two still-obtained logical
children succeeds and marks both children pending deletion; each child is
then neither obtainable (obtain returns none) nor deletable (delete fails
with RTEMS_INVALID_ID); the use count of the physical disk stays 2 (one
per child).  Releasing each child drops its use count to zero, but the
delete triggered by the release fails in get_disk_entry (deleted
descriptors are invisible), so neither the children nor the physical disk
are ever reclaimed: all three table slots stay occupied and all three
descriptors stay allocated, the physical disk with use count 2. -/
theorem C2_cascade_behaviour :
    c2AfterDelete.2 = RTEMS_SUCCESSFUL ∧
    (heapGet c2AfterDelete.1 1).map DiskDevice.deleted = some true ∧
    (heapGet c2AfterDelete.1 2).map DiskDevice.deleted = some true ∧
    (heapGet c2AfterDelete.1 0).map DiskDevice.uses = some 2 ∧
    (rtems_disk_obtain c2AfterDelete.1 1).1 = none ∧
    (rtems_disk_obtain c2AfterDelete.1 2).1 = none ∧
    (rtems_disk_delete c2AfterDelete.1 1).2 = RTEMS_INVALID_ID ∧
    (rtems_disk_delete c2AfterDelete.1 2).2 = RTEMS_INVALID_ID ∧
    (heapGet c2AfterReleases 1).map DiskDevice.uses = some 0 ∧
    (heapGet c2AfterReleases 2).map DiskDevice.uses = some 0 ∧
    (heapGet c2AfterReleases 0).map DiskDevice.uses = some 2 ∧
    slotGetAt c2AfterReleases 0 0 = some 0 ∧
    slotGetAt c2AfterReleases 0 1 = some 1 ∧
    slotGetAt c2AfterReleases 0 2 = some 2 := by
  decide

/-- C3.  The claim says that starting below the smallest live identifier
and iterating rtems_disk_next visits exactly the live descriptors in
ascending order and then returns none, skipping deleted descriptors and
empty slots.  On the code this fails twice.  First, with one live disk at
(0, 1), next(0) does return that disk, but the following call next(1),
instead of returning none, runs the inner index up to the recorded table
size 8 and reads minor[8], one cell past the end of the inner array (the
loop guard is minor greater-than size instead of greater-or-equal), which
is undefined behaviour, not a none return.  Second, a deleted but
unreclaimed descriptor is returned by next rather than skipped, since the
loop tests the slot pointer but never the deleted flag. -/
theorem C3_next_is_broken :
    rtems_disk_next c3OneDisk 0 100 = NextRes.found 0 ∧
    rtems_disk_next c3OneDisk 1 100 = NextRes.undef ∧
    (heapGet c3DeletedInSlot 0).map DiskDevice.deleted = some true ∧
    rtems_disk_next c3DeletedInSlot 0 100 = NextRes.found 0 := by
  decide

/-- C4.  The claim says rtems_disk_next never reads an inner table at an
index at or beyond its recorded size and never dereferences a NULL minor
array.  On the code both happen.  On a freshly initialized registry (eight
empty major entries, every minor pointer NULL, every size 0) any next call
with major below 8 reaches minor[0] through a NULL minor pointer.  With
one live disk at (0, 0) and inner size 8, next(0) walks the empty slots 1
to 7 and then reads minor[8], the boundary index equal to the recorded
size, because the loop guard uses greater-than instead of
greater-or-equal.  Both executions end in the undefined-read marker of the
embedding instead of a defined result. -/
theorem C4_next_reads_out_of_bounds :
    rtems_disk_next initState 0 100 = NextRes.undef ∧
    rtems_disk_next c1Created 0 100 = NextRes.undef := by
  decide

/-- C9 counterexample.  The claim says growth sets the new capacity of the
relevant dimension to the larger of twice the old capacity and index plus
one.  For the inner (minor) dimension growing from capacity zero the code
instead starts at DISKTAB_INITIAL_SIZE: creating the table entry for
identifier (0, 0) on a fresh registry (inner capacity 0) yields inner
capacity 8, while the claimed formula gives max(0, 1) = 1. -/
theorem C9_initial_inner_capacity_is_8 :
    (tabGet (create_disk_table_entry initState 0 true true).1 0).size = 8 ∧
    max (2 * (tabGet initState 0).size) (minorOf 0 + 1) = 1 := by
  decide

/-- Helper: on the one-physical-disk family, create_log with a range
satisfying the invariant succeeds and installs the logical disk. -/
theorem create_log_fam_ok (S b c : Nat) (hS : S < U32) (hc : 0 < c)
    (hbc : b + c ≤ S) :
    rtems_disk_create_log (physFam S) 1 0 b c none allOk
      = (logFam S b c, RTEMS_SUCCESSFUL) := by
  unfold rtems_disk_create_log
  have hmod : (b + c) % U32 = b + c := Nat.mod_eq_of_lt (by unfold U32 at *; omega)
  simp only [hmod]
  rw [show get_disk_entry (physFam S) 0 = (some 0, physFamInc S) from rfl]
  simp only []
  rw [show heapGet (physFamInc S) 0 = some (physDesc S 1) from rfl]
  simp only []
  rw [show is_physical_disk 0 (physDesc S 1) = true from rfl]
  simp only [Bool.true_eq_false, if_false]
  rw [if_neg (by simp only [physDesc]; omega)]
  rw [show create_disk (physFamInc S) 1 none allOk
    = (logCreatedState S, RTEMS_SUCCESSFUL, some 1) from rfl]
  simp only []
  rfl

/-- Helper: on the one-physical-disk family, create_log with a range
violating the invariant fails with RTEMS_INVALID_NUMBER and restores the
state exactly (in particular no slot is created for the new identifier). -/
theorem create_log_fam_bad (S b c : Nat) (hb : b < U32) (hc : c < U32)
    (hviol : c = 0 ∨ S < b + c) :
    rtems_disk_create_log (physFam S) 1 0 b c none allOk
      = (physFam S, RTEMS_INVALID_NUMBER) := by
  unfold rtems_disk_create_log
  simp only []
  rw [show get_disk_entry (physFam S) 0 = (some 0, physFamInc S) from rfl]
  simp only []
  rw [show heapGet (physFamInc S) 0 = some (physDesc S 1) from rfl]
  simp only []
  rw [show is_physical_disk 0 (physDesc S 1) = true from rfl]
  simp only [Bool.true_eq_false, if_false]
  have hcase : (b + c) % U32 = b + c ∨
      ((b + c) % U32 = b + c - U32 ∧ U32 ≤ b + c) := by
    rcases Nat.lt_or_ge (b + c) U32 with h | h
    · exact Or.inl (Nat.mod_eq_of_lt h)
    · refine Or.inr ⟨?_, h⟩
      rw [Nat.mod_eq_sub_mod h, Nat.mod_eq_of_lt (by unfold U32 at *; omega)]
  rw [if_pos ?hcond]
  case hcond =>
    simp only [physDesc]
    rcases hcase with h | ⟨h, h2⟩ <;> rw [h] <;> unfold U32 at * <;> omega
  rfl

/-- C5.  On a live physical disk of size S (the one-physical-disk family
state), a create_log request for identifier (0, 1) with block range b of
length c succeeds whenever c is positive and b + c is at most S (the slot
is free and every allocation succeeds in this state); any range violating
that bound fails with RTEMS_INVALID_NUMBER (the InvalidArgument status of
the specification), leaves the registry state exactly unchanged, so the
slot of the new identifier stays empty and a subsequent create_log with
the same identifier and a valid range succeeds. -/
theorem C5_create_log_range_check (S b c : Nat) (hS : S < U32) (hb : b < U32)
    (hc : c < U32) :
    (0 < c → b + c ≤ S →
      rtems_disk_create_log (physFam S) 1 0 b c none allOk
        = (logFam S b c, RTEMS_SUCCESSFUL)) ∧
    ((c = 0 ∨ S < b + c) →
      rtems_disk_create_log (physFam S) 1 0 b c none allOk
        = (physFam S, RTEMS_INVALID_NUMBER) ∧
      slotGetAt (physFam S) 0 1 = none ∧
      (0 < S →
        (rtems_disk_create_log (physFam S) 1 0 0 S none allOk).2
          = RTEMS_SUCCESSFUL)) := by
  refine ⟨fun h1 h2 => create_log_fam_ok S b c hS h1 h2, fun hviol => ?_⟩
  refine ⟨create_log_fam_bad S b c hb hc hviol, rfl, fun hpos => ?_⟩
  rw [create_log_fam_ok S 0 S hS hpos (by omega)]

/-- C5 witness: a concrete instance with S = 1000.  The valid range
(100, 100) succeeds; the invalid range (900, 101) fails with
RTEMS_INVALID_NUMBER, no slot appears, and the follow-up valid call
succeeds. -/
theorem C5_witness :
    rtems_disk_create_log (physFam 1000) 1 0 100 100 none allOk
      = (logFam 1000 100 100, RTEMS_SUCCESSFUL) ∧
    rtems_disk_create_log (physFam 1000) 1 0 900 101 none allOk
      = (physFam 1000, RTEMS_INVALID_NUMBER) := by
  have h := C5_create_log_range_check 1000 100 100 (by decide) (by decide)
    (by decide)
  have h2 := C5_create_log_range_check 1000 900 101 (by decide) (by decide)
    (by decide)
  exact ⟨h.1 (by decide) (by decide), (h2.2 (by decide)).1⟩

/-- C10.  rtems_disk_io_initialize is idempotent: when the registry is
already initialized (disktab_size positive) it returns RTEMS_SUCCESSFUL
and changes nothing, keeping table, lock and every registered descriptor.
On a first call (uninitialized registry) any failure of the table
allocation, the semaphore creation or the buffering-cache initialization
yields RTEMS_NO_MEMORY or RTEMS_UNSATISFIED, unwinds the allocations of
that call (no table, no mutex) and leaves the registry uninitialized. -/
theorem C10_init_idempotent_and_unwinds (s : DiskState)
    (callocOk semOk bdbufOk : Bool) :
    (0 < s.disktab_size →
      rtems_disk_io_init s callocOk semOk bdbufOk = (s, RTEMS_SUCCESSFUL)) ∧
    (s.disktab_size = 0 → s.mutexValid = false →
      ¬(callocOk = true ∧ semOk = true ∧ bdbufOk = true) →
      let out := rtems_disk_io_init s callocOk semOk bdbufOk
      (out.2 = RTEMS_NO_MEMORY ∨ out.2 = RTEMS_UNSATISFIED) ∧
      out.1.disktab = [] ∧ out.1.disktab_size = 0 ∧
      out.1.mutexValid = false ∧ out.1.heap = s.heap) := by
  constructor
  · intro h
    unfold rtems_disk_io_init
    rw [if_pos h]
  · intro h0 hmx hfail
    unfold rtems_disk_io_init
    rcases hc : callocOk with _ | _ <;> rcases hs : semOk with _ | _ <;>
      rcases hb : bdbufOk with _ | _ <;>
      simp_all

/-- C10 witness: on the initialized registry a second initialize call is a
no-op success, and on the uninitialized registry a buffering-cache failure
yields RTEMS_UNSATISFIED with the registry still uninitialized. -/
theorem C10_witness :
    rtems_disk_io_init initState true true true
      = (initState, RTEMS_SUCCESSFUL) ∧
    (rtems_disk_io_init emptyState true true false).2 = RTEMS_UNSATISFIED := by
  refine ⟨(C10_init_idempotent_and_unwinds initState true true true).1
    (by decide), ?_⟩
  have h := (C10_init_idempotent_and_unwinds emptyState true true false).2
    (by decide) (by decide) (by decide)
  exact h.1.resolve_left (by decide)

theorem heapModify_disktab (s : DiskState) (r : DiskRef)
    (f : DiskDevice → DiskDevice) : (heapModify s r f).disktab = s.disktab := by
  unfold heapModify; split <;> rfl

theorem heapModify_disktab_size (s : DiskState) (r : DiskRef)
    (f : DiskDevice → DiskDevice) :
    (heapModify s r f).disktab_size = s.disktab_size := by
  unfold heapModify; split <;> rfl

theorem tabGet_heapModify (s : DiskState) (r : DiskRef)
    (f : DiskDevice → DiskDevice) (M : Nat) :
    tabGet (heapModify s r f) M = tabGet s M := by
  unfold tabGet; rw [heapModify_disktab]

theorem slotGetAt_heapModify (s : DiskState) (r : DiskRef)
    (f : DiskDevice → DiskDevice) (M m : Nat) :
    slotGetAt (heapModify s r f) M m = slotGetAt s M m := by
  unfold slotGetAt; rw [tabGet_heapModify]

theorem heapGet_heapModify_self (s : DiskState) (r : DiskRef)
    (f : DiskDevice → DiskDevice) (d : DiskDevice)
    (h : heapGet s r = some d) :
    heapGet (heapModify s r f) r = some (f d) := by
  unfold heapGet at h
  have h2 : s.heap[r]? = some (some d) := Option.join_eq_some.mp h
  have hlt : r < s.heap.length := (List.getElem?_eq_some.mp h2).1
  unfold heapModify
  rw [h2]
  unfold heapGet
  simp only [List.getElem?_set_self hlt]
  rfl

theorem heapGet_heapModify_ne (s : DiskState) (r r2 : DiskRef)
    (f : DiskDevice → DiskDevice) (h : r2 ≠ r) :
    heapGet (heapModify s r f) r2 = heapGet s r2 := by
  unfold heapModify
  split
  · unfold heapGet
    simp only [List.getElem?_set_ne (Ne.symm h)]
  · rfl

theorem heapGet_heap_append (s : DiskState) (x : List (Option DiskDevice))
    (r : DiskRef) (h : r < s.heap.length) :
    heapGet { s with heap := s.heap ++ x } r = heapGet s r := by
  unfold heapGet
  simp only [List.getElem?_append, if_pos h]

theorem get_disk_entry_found (s : DiskState) (dev : DevT) (r : DiskRef)
    (dd : DiskDevice)
    (h1 : majorOf dev < s.disktab_size)
    (h2 : minorOf dev < (tabGet s (majorOf dev)).size)
    (h3 : (tabGet s (majorOf dev)).minor.isSome = true)
    (h4 : slotGetAt s (majorOf dev) (minorOf dev) = some r)
    (h5 : heapGet s r = some dd) (h6 : dd.deleted = false) :
    get_disk_entry s dev
      = (some r, heapModify s r fun d => { d with uses := incMod d.uses }) := by
  unfold get_disk_entry
  simp only [if_pos h1, if_pos (And.intro h2 h3), h4, h5, if_pos h6]

theorem get_disk_entry_cases (s : DiskState) (dev : DevT) :
    (∃ r dd, get_disk_entry s dev
        = (some r, heapModify s r fun d => { d with uses := incMod d.uses })
      ∧ heapGet s r = some dd ∧ dd.deleted = false) ∨
    get_disk_entry s dev = (none, s) := by
  simp only [get_disk_entry]
  split_ifs with h1 h2
  · rcases hx : slotGetAt s (majorOf dev) (minorOf dev) with _ | r
    · right; rfl
    · simp only []
      rcases hy : heapGet s r with _ | dd
      · right; rfl
      · simp only []
        rcases hz : dd.deleted with _ | _
        · left
          exact ⟨r, dd, rfl, hy, hz⟩
        · right
          rfl
  · right; rfl
  · right; rfl

theorem tabGet_oob (s : DiskState) (M : Nat) (hwf : WF s)
    (h : s.disktab_size ≤ M) : tabGet s M = ⟨none, 0⟩ := by
  unfold tabGet
  rw [List.getElem?_len_le (by rw [hwf.1]; exact h)]
  rfl

theorem tabGet_tabSet_self (s : DiskState) (M : Nat) (T : DiskTable)
    (h : M < s.disktab.length) : tabGet (tabSet s M T) M = T := by
  unfold tabGet tabSet
  simp only [List.getElem?_set_self h]
  rfl

theorem tabGet_tabSet_ne (s : DiskState) (M M2 : Nat) (T : DiskTable)
    (h : M2 ≠ M) : tabGet (tabSet s M T) M2 = tabGet s M2 := by
  unfold tabGet tabSet
  simp only [List.getElem?_set_ne (fun e => h e.symm)]

theorem extendTab_spec (s : DiskState) (n : Nat) (hwf : WF s)
    (hn : s.disktab_size ≤ n) :
    (extendTab s n).heap = s.heap ∧ (extendTab s n).mutexValid = s.mutexValid ∧
    WF (extendTab s n) ∧ (extendTab s n).disktab_size = n ∧
    (∀ M2, M2 < s.disktab_size → tabGet (extendTab s n) M2 = tabGet s M2) ∧
    (∀ M2, s.disktab_size ≤ M2 → tabGet (extendTab s n) M2 = ⟨none, 0⟩) := by
  have hlen : (extendTab s n).disktab.length = n := by
    unfold extendTab
    simp only [List.length_append, List.length_replicate]
    rw [hwf.1]
    omega
  have hlow : ∀ M2, M2 < s.disktab_size →
      tabGet (extendTab s n) M2 = tabGet s M2 := by
    intro M2 hM2
    unfold tabGet extendTab
    rw [List.getElem?_append, if_pos (by rw [hwf.1]; exact hM2)]
  have hhigh : ∀ M2, s.disktab_size ≤ M2 →
      tabGet (extendTab s n) M2 = ⟨none, 0⟩ := by
    intro M2 hM2
    unfold tabGet extendTab
    rw [List.getElem?_append_right (by rw [hwf.1]; exact hM2),
      List.getElem?_replicate]
    split_ifs <;> rfl
  refine ⟨rfl, rfl, ⟨hlen, ?_⟩, rfl, hlow, hhigh⟩
  intro M2 hM2
  rcases Nat.lt_or_ge M2 s.disktab_size with hc | hc
  · rw [hlow M2 hc]
    exact hwf.2 M2 hc
  · rw [hhigh M2 hc]
    rfl

theorem growMajorStage_spec (s : DiskState) (M : Nat) (ok : Bool)
    (s1 : DiskState) (hwf : WF s) (h : growMajorStage s M ok = some s1) :
    s1.heap = s.heap ∧ s1.mutexValid = s.mutexValid ∧ WF s1 ∧
    M < s1.disktab_size ∧ s.disktab_size ≤ s1.disktab_size ∧
    (∀ M2, M2 < s.disktab_size → tabGet s1 M2 = tabGet s M2) ∧
    (∀ M2, s.disktab_size ≤ M2 → tabGet s1 M2 = ⟨none, 0⟩) ∧
    s1.disktab_size
      = (if s.disktab_size ≤ M then max (2 * s.disktab_size) (M + 1)
         else s.disktab_size) := by
  simp only [growMajorStage] at h
  by_cases hM : s.disktab_size ≤ M
  · rw [if_pos hM] at h
    cases ok with
    | false => exact absurd h (by simp)
    | true =>
      rw [if_pos rfl] at h
      have hns : (if 2 * s.disktab_size ≤ M then M + 1 else 2 * s.disktab_size)
          = max (2 * s.disktab_size) (M + 1) := by
        split_ifs <;> omega
      rw [hns] at h
      injection h with h
      subst h
      obtain ⟨e1, e2, e3, e4, e5, e6⟩ :=
        extendTab_spec s (max (2 * s.disktab_size) (M + 1)) hwf (by omega)
      exact ⟨e1, e2, e3, by omega, by omega, e5, e6, by rw [if_pos hM]; omega⟩
  · rw [if_neg hM] at h
    injection h with h
    subst h
    exact ⟨rfl, rfl, hwf, by omega, Nat.le_refl _, fun M2 _ => rfl,
      fun M2 h2 => tabGet_oob s M2 hwf h2, by rw [if_neg hM]⟩

theorem growMinorStage_spec (s1 : DiskState) (M m : Nat) (ok : Bool)
    (hwf : WF s1) (hM : M < s1.disktab_size) :
    (growMinorStage s1 M m ok).1.heap = s1.heap ∧
    (growMinorStage s1 M m ok).1.mutexValid = s1.mutexValid ∧
    WF (growMinorStage s1 M m ok).1 ∧
    (growMinorStage s1 M m ok).1.disktab_size = s1.disktab_size ∧
    (∀ M2 m2, slotGetAt (growMinorStage s1 M m ok).1 M2 m2
      = slotGetAt s1 M2 m2) ∧
    ((growMinorStage s1 M m ok).2 = true →
      (∃ l, (tabGet (growMinorStage s1 M m ok).1 M).minor = some l
        ∧ m < l.length
        ∧ l.length = (tabGet (growMinorStage s1 M m ok).1 M).size) ∧
      (tabGet (growMinorStage s1 M m ok).1 M).size =
        (if (tabGet s1 M).minor.isSome = true ∧ m < (tabGet s1 M).size
         then (tabGet s1 M).size
         else if (tabGet s1 M).size = 0 then max DISKTAB_INITIAL_SIZE (m + 1)
         else max (2 * (tabGet s1 M).size) (m + 1))) ∧
    ((growMinorStage s1 M m ok).2 = false
      → (growMinorStage s1 M m ok).1 = s1) := by
  have hlenM : M < s1.disktab.length := by rw [hwf.1]; exact hM
  have hinner : innerWF (tabGet s1 M) := hwf.2 M hM
  simp only [growMinorStage]
  by_cases hcond : (tabGet s1 M).minor.isNone = true ∨ (tabGet s1 M).size ≤ m
  · rw [if_pos hcond]
    cases ok with
    | false =>
      rw [if_neg Bool.false_ne_true]
      refine ⟨rfl, rfl, hwf, rfl, fun M2 m2 => rfl, ?_, fun _ => rfl⟩
      intro hcontra
      exact absurd hcontra (by simp)
    | true =>
      rw [if_pos rfl]
      have hold : ((tabGet s1 M).minor.getD []).length = (tabGet s1 M).size := by
        unfold innerWF at hinner
        rcases hx : (tabGet s1 M).minor with _ | l
        · rw [hx] at hinner
          simp only [Option.getD, List.length_nil]
          omega
        · rw [hx] at hinner
          simp only [Option.getD]
          exact hinner
      have hns : (if (if (tabGet s1 M).size = 0 then DISKTAB_INITIAL_SIZE
            else 2 * (tabGet s1 M).size) ≤ m then m + 1
          else if (tabGet s1 M).size = 0 then DISKTAB_INITIAL_SIZE
            else 2 * (tabGet s1 M).size)
          = (if (tabGet s1 M).size = 0 then max DISKTAB_INITIAL_SIZE (m + 1)
             else max (2 * (tabGet s1 M).size) (m + 1)) := by
        unfold DISKTAB_INITIAL_SIZE
        split_ifs <;> omega
      set ns := (if (if (tabGet s1 M).size = 0 then DISKTAB_INITIAL_SIZE
            else 2 * (tabGet s1 M).size) ≤ m then m + 1
          else if (tabGet s1 M).size = 0 then DISKTAB_INITIAL_SIZE
            else 2 * (tabGet s1 M).size) with hnsdef
    -- facts about the new size
      have hge : (tabGet s1 M).size ≤ ns ∧ m < ns := by
        rw [hnsdef]
        unfold DISKTAB_INITIAL_SIZE
        split_ifs <;> omega
      have hnewlen : ((tabGet s1 M).minor.getD []
          ++ List.replicate (ns - (tabGet s1 M).size) none).length = ns := by
        rw [List.length_append, List.length_replicate, hold]
        omega
      have htg : tabGet (tabSet s1 M ⟨some ((tabGet s1 M).minor.getD []
            ++ List.replicate (ns - (tabGet s1 M).size) none), ns⟩) M
          = ⟨some ((tabGet s1 M).minor.getD []
            ++ List.replicate (ns - (tabGet s1 M).size) none), ns⟩ :=
        tabGet_tabSet_self s1 M _ hlenM
      simp only []
      refine ⟨rfl, rfl, ?_, rfl, ?_, ?_, ?_⟩
      · refine ⟨by simp only [tabSet, List.length_set]; exact hwf.1, ?_⟩
        intro M2 hM2
        by_cases he : M2 = M
        · subst he
          rw [htg]
          unfold innerWF
          simp only []
          exact hnewlen
        · rw [tabGet_tabSet_ne s1 M M2 _ he]
          exact hwf.2 M2 hM2
      · intro M2 m2
        by_cases he : M2 = M
        · subst he
          unfold slotGetAt
          rw [htg]
          simp only []
          rcases hx : (tabGet s1 M2).minor with _ | l
          · simp only [Option.getD, List.nil_append, List.getElem?_replicate]
            split_ifs <;> rfl
          · have hl : l.length = (tabGet s1 M2).size := by
              unfold innerWF at hinner
              rw [hx] at hinner
              exact hinner
            simp only [Option.getD]
            rcases Nat.lt_or_ge m2 l.length with hc | hc
            · rw [List.getElem?_append, if_pos hc]
            · rw [List.getElem?_append_right hc,
                List.getElem?_replicate, List.getElem?_len_le hc]
              split_ifs <;> rfl
        · unfold slotGetAt
          rw [tabGet_tabSet_ne s1 M M2 _ he]
      · intro _
        constructor
        · exact ⟨_, by rw [htg], by rw [hnewlen]; exact hge.2,
            by rw [htg, hnewlen]⟩
        · have hfirst : ¬((tabGet s1 M).minor.isSome = true
              ∧ m < (tabGet s1 M).size) := by
            rcases hcond with hc | hc
            · intro hcontra
              rw [Option.isNone_iff_eq_none] at hc
              rw [hc] at hcontra
              exact absurd hcontra.1 (by simp)
            · intro hcontra
              omega
          rw [htg]
          simp only []
          rw [← hns, if_neg hfirst]
      · intro hcontra
        exact absurd hcontra (by simp)
  · rw [if_neg hcond]
    push_neg at hcond
    obtain ⟨hsome, hlt⟩ := hcond
    rcases hx : (tabGet s1 M).minor with _ | l
    · rw [hx] at hsome
      simp only [Option.isNone] at hsome
      exact absurd rfl hsome
    · have hl : l.length = (tabGet s1 M).size := by
        unfold innerWF at hinner
        rw [hx] at hinner
        exact hinner
      exact ⟨rfl, rfl, hwf, rfl, fun M2 m2 => rfl,
        fun _ => ⟨⟨l, rfl, by omega, hl⟩, by rw [if_pos ⟨rfl, hlt⟩]⟩,
        fun _ => rfl⟩

theorem slotGetAt_eq_of_tabGet (s s2 : DiskState) (M2 m2 : Nat)
    (h : tabGet s2 M2 = tabGet s M2) :
    slotGetAt s2 M2 m2 = slotGetAt s M2 m2 := by
  unfold slotGetAt
  rw [h]

theorem create_disk_table_entry_spec (s : DiskState) (dev : DevT)
    (gM gm : Bool) (hwf : WF s) :
    (create_disk_table_entry s dev gM gm).1.heap = s.heap ∧
    (create_disk_table_entry s dev gM gm).1.mutexValid = s.mutexValid ∧
    WF (create_disk_table_entry s dev gM gm).1 ∧
    (∀ M2 m2, slotGetAt (create_disk_table_entry s dev gM gm).1 M2 m2
      = slotGetAt s M2 m2) ∧
    ((create_disk_table_entry s dev gM gm).2 = true →
      majorOf dev < (create_disk_table_entry s dev gM gm).1.disktab_size ∧
      ∃ l, (tabGet (create_disk_table_entry s dev gM gm).1 (majorOf dev)).minor
          = some l
        ∧ minorOf dev < l.length
        ∧ l.length
          = (tabGet (create_disk_table_entry s dev gM gm).1 (majorOf dev)).size) := by
  simp only [create_disk_table_entry]
  rcases hg : growMajorStage s (majorOf dev) gM with _ | s1
  · exact ⟨rfl, rfl, hwf, fun M2 m2 => rfl, fun h => absurd h (by simp)⟩
  · obtain ⟨g1, g2, g3, g4, g5, g6, g7, g8⟩ :=
      growMajorStage_spec s (majorOf dev) gM s1 hwf hg
    have hslot1 : ∀ M2 m2, slotGetAt s1 M2 m2 = slotGetAt s M2 m2 := by
      intro M2 m2
      rcases Nat.lt_or_ge M2 s.disktab_size with hc | hc
      · exact slotGetAt_eq_of_tabGet s s1 M2 m2 (g6 M2 hc)
      · unfold slotGetAt
        rw [g7 M2 hc, tabGet_oob s M2 hwf hc]
    obtain ⟨n1, n2, n3, n4, n5, n6, n7⟩ :=
      growMinorStage_spec s1 (majorOf dev) (minorOf dev) gm g3 g4
    refine ⟨n1.trans g1, n2.trans g2, n3,
      fun M2 m2 => (n5 M2 m2).trans (hslot1 M2 m2), fun hok => ?_⟩
    obtain ⟨hex, _⟩ := n6 hok
    exact ⟨lt_of_lt_of_eq g4 n4.symm, hex⟩

theorem growMajorStage_heap (s : DiskState) (M : Nat) (ok : Bool)
    (s1 : DiskState) (h : growMajorStage s M ok = some s1) :
    s1.heap = s.heap := by
  simp only [growMajorStage] at h
  split_ifs at h
  all_goals (injection h with h; subst h; rfl)

theorem growMinorStage_heap (s1 : DiskState) (M m : Nat) (ok : Bool) :
    (growMinorStage s1 M m ok).1.heap = s1.heap := by
  simp only [growMinorStage]
  split_ifs <;> rfl

theorem create_disk_table_entry_heap (s : DiskState) (dev : DevT)
    (a b : Bool) : (create_disk_table_entry s dev a b).1.heap = s.heap := by
  simp only [create_disk_table_entry]
  rcases hg : growMajorStage s (majorOf dev) a with _ | s1
  · rfl
  · exact (growMinorStage_heap s1 (majorOf dev) (minorOf dev) b).trans
      (growMajorStage_heap s (majorOf dev) a s1 hg)

theorem slotSetAt_heap (s : DiskState) (M m : Nat) (v : Option DiskRef) :
    (slotSetAt s M m v).heap = s.heap := by
  simp only [slotSetAt]
  split <;> rfl

theorem slotSetAt_disktab_size (s : DiskState) (M m : Nat)
    (v : Option DiskRef) :
    (slotSetAt s M m v).disktab_size = s.disktab_size := by
  simp only [slotSetAt]
  split <;> rfl

theorem slotSetAt_mutex (s : DiskState) (M m : Nat) (v : Option DiskRef) :
    (slotSetAt s M m v).mutexValid = s.mutexValid := by
  simp only [slotSetAt]
  split <;> rfl

theorem tabGet_slotSetAt_self (s : DiskState) (M m : Nat)
    (v : Option DiskRef) (l : List (Option DiskRef))
    (hminor : (tabGet s M).minor = some l) (hM : M < s.disktab.length) :
    tabGet (slotSetAt s M m v) M = ⟨some (l.set m v), (tabGet s M).size⟩ := by
  simp only [slotSetAt]
  rw [hminor]
  exact tabGet_tabSet_self s M _ hM

theorem slotGetAt_slotSetAt_self (s : DiskState) (M m : Nat)
    (v : Option DiskRef) (l : List (Option DiskRef))
    (hminor : (tabGet s M).minor = some l) (hM : M < s.disktab.length)
    (hm : m < l.length) :
    slotGetAt (slotSetAt s M m v) M m = v := by
  unfold slotGetAt
  rw [tabGet_slotSetAt_self s M m v l hminor hM]
  simp only []
  rw [List.getElem?_set_self hm]
  rfl

theorem create_disk_occupied (s : DiskState) (dev : DevT)
    (name : Option String) (fx : AllocFx) (r : DiskRef)
    (hM : majorOf dev < s.disktab_size)
    (hm : minorOf dev < (tabGet s (majorOf dev)).size)
    (hsome : (tabGet s (majorOf dev)).minor.isSome = true)
    (hslot : slotGetAt s (majorOf dev) (minorOf dev) = some r) :
    create_disk s dev name fx = (s, RTEMS_RESOURCE_IN_USE, none) := by
  have hstage1 : growMajorStage s (majorOf dev) fx.growMajorOk = some s := by
    simp only [growMajorStage]
    rw [if_neg (by omega)]
  have hstage2 : growMinorStage s (majorOf dev) (minorOf dev) fx.growMinorOk
      = (s, true) := by
    simp only [growMinorStage]
    rw [if_neg ?hc]
    case hc =>
      intro hcontra
      rcases hcontra with hc | hc
      · rw [Option.isNone_iff_eq_none] at hc
        rw [hc] at hsome
        exact absurd hsome (by simp)
      · omega
  have hcdte : create_disk_table_entry s dev fx.growMajorOk fx.growMinorOk
      = (s, true) := by
    simp only [create_disk_table_entry]
    rw [hstage1]
    exact hstage2
  simp only [create_disk]
  rw [hcdte]
  simp only []
  rw [if_neg (by simp), if_pos (by rw [hslot]; rfl)]

theorem create_disk_success (s : DiskState) (dev : DevT)
    (name : Option String) (fx : AllocFx) (s1 : DiskState) (r : DiskRef)
    (hwf : WF s)
    (h : create_disk s dev name fx = (s1, RTEMS_SUCCESSFUL, some r)) :
    r = s.heap.length ∧
    s1.heap = s.heap ++ [some (blankDisk dev name)] ∧
    majorOf dev < s1.disktab_size ∧
    minorOf dev < (tabGet s1 (majorOf dev)).size ∧
    (tabGet s1 (majorOf dev)).minor.isSome = true ∧
    slotGetAt s1 (majorOf dev) (minorOf dev) = some r ∧
    heapGet s1 r = some (blankDisk dev name) := by
  obtain ⟨c1, c2, c3, c4, c5⟩ :=
    create_disk_table_entry_spec s dev fx.growMajorOk fx.growMinorOk hwf
  simp only [create_disk] at h
  rcases hE : create_disk_table_entry s dev fx.growMajorOk fx.growMinorOk
    with ⟨s0, ok⟩
  rw [hE] at h c1 c2 c3 c4 c5
  simp only [] at h c1 c2 c3 c4 c5
  split_ifs at h with h1 h2 h3 h4 h5
  · exact absurd h (by simp)
  · exact absurd h (by simp)
  · exact absurd h (by simp)
  · exact absurd h (by simp)
  · exact absurd h (by simp)
  · have hok : ok = true := by
      rcases ok with _ | _
      · exact absurd rfl h1
      · rfl
    obtain ⟨hMlt, l, hl1, hl2, hl3⟩ := c5 hok
    simp only [Prod.mk.injEq] at h
    obtain ⟨hs1, _, hr⟩ := h
    subst hs1
    injection hr with hr
    subst hr
    have hlen0 : majorOf dev < s0.disktab.length := by
      rw [(c3 : WF s0).1]
      exact hMlt
    have htg2 : tabGet { s0 with heap := s0.heap ++ [some (blankDisk dev name)] }
        (majorOf dev) = tabGet s0 (majorOf dev) := rfl
    have hminor2 : (tabGet { s0 with heap := s0.heap
        ++ [some (blankDisk dev name)] } (majorOf dev)).minor = some l := by
      rw [htg2, hl1]
    have hlen2 : majorOf dev
        < ({ s0 with heap := s0.heap ++ [some (blankDisk dev name)] }
          : DiskState).disktab.length := hlen0
    have hheap0 : s0.heap = s.heap := c1
    rw [← hheap0]
    refine ⟨rfl, ?_, ?_, ?_, ?_, ?_, ?_⟩
    · rw [slotSetAt_heap]
    · rw [slotSetAt_disktab_size]
      exact hMlt
    · rw [tabGet_slotSetAt_self _ _ _ _ l hminor2 hlen2, htg2, ← hl3]
      exact hl2
    · rw [tabGet_slotSetAt_self _ _ _ _ l hminor2 hlen2]
      rfl
    · exact slotGetAt_slotSetAt_self _ _ _ _ l hminor2 hlen2 hl2
    · unfold heapGet
      rw [show (slotSetAt { s0 with heap := s0.heap
          ++ [some (blankDisk dev name)] } (majorOf dev) (minorOf dev)
          (some s0.heap.length)).heap
        = s0.heap ++ [some (blankDisk dev name)] from slotSetAt_heap _ _ _ _]
      rw [List.getElem?_concat_length]
      rfl

theorem heapGet_congr_heap (s1 s2 : DiskState) (r : DiskRef)
    (h : s1.heap = s2.heap) : heapGet s1 r = heapGet s2 r := by
  unfold heapGet
  rw [h]

theorem create_disk_shape (s : DiskState) (dev : DevT) (name : Option String)
    (fx : AllocFx) :
    ((create_disk s dev name fx).2.2 = none ∧
      (create_disk s dev name fx).2.1 ≠ RTEMS_SUCCESSFUL ∧
      (create_disk s dev name fx).1.heap = s.heap) ∨
    ((create_disk s dev name fx).2.1 = RTEMS_SUCCESSFUL ∧
      (create_disk s dev name fx).2.2 = some s.heap.length ∧
      (create_disk s dev name fx).1.heap
        = s.heap ++ [some (blankDisk dev name)]) := by
  simp only [create_disk]
  rcases hE : create_disk_table_entry s dev fx.growMajorOk fx.growMinorOk
    with ⟨s0, ok⟩
  have hheap0 : s0.heap = s.heap := by
    have hcd := create_disk_table_entry_heap s dev fx.growMajorOk fx.growMinorOk
    rw [hE] at hcd
    exact hcd
  split_ifs with h1 h2 h3 h4 h5
  · exact Or.inl ⟨rfl, by simp, hheap0⟩
  · exact Or.inl ⟨rfl, by simp, hheap0⟩
  · exact Or.inl ⟨rfl, by simp, hheap0⟩
  · exact Or.inl ⟨rfl, by simp, hheap0⟩
  · exact Or.inl ⟨rfl, by simp, hheap0⟩
  · refine Or.inr ⟨rfl, ?_, ?_⟩
    · rw [← hheap0]
    · rw [slotSetAt_heap]
      simp only []
      rw [hheap0]

/-- C8.  For every block_size bs positive and non-null handler, on any
well-formed registry state in which the shared allocation helper
create_disk succeeds (the target slot is free and every allocation
succeeds), rtems_disk_create_phys succeeds, and an immediately following
rtems_disk_obtain on the same identifier returns the new descriptor, whose
block_size is the supplied bs, whose phys_dev is the descriptor itself (the
self-reference marking a physical disk), and whose use count is exactly 1
after the obtain. -/
theorem C8_create_phys_then_obtain (s : DiskState) (dev : DevT)
    (bs bc hId : Nat) (capRet : Int) (capVal ddata : Nat)
    (name : Option String) (fx : AllocFx) (s1 : DiskState) (r : DiskRef)
    (hwf : WF s) (hbs : bs ≠ 0)
    (hcd : create_disk s dev name fx = (s1, RTEMS_SUCCESSFUL, some r)) :
    (rtems_disk_create_phys s dev bs bc (some hId) capRet capVal ddata
        name fx).2 = RTEMS_SUCCESSFUL ∧
    (rtems_disk_obtain (rtems_disk_create_phys s dev bs bc (some hId) capRet
        capVal ddata name fx).1 dev).1 = some r ∧
    (heapGet (rtems_disk_obtain (rtems_disk_create_phys s dev bs bc
        (some hId) capRet capVal ddata name fx).1 dev).2 r).map
        DiskDevice.block_size = some bs ∧
    (heapGet (rtems_disk_obtain (rtems_disk_create_phys s dev bs bc
        (some hId) capRet capVal ddata name fx).1 dev).2 r).map
        DiskDevice.phys_dev = some r ∧
    (heapGet (rtems_disk_obtain (rtems_disk_create_phys s dev bs bc
        (some hId) capRet capVal ddata name fx).1 dev).2 r).map
        DiskDevice.uses = some 1 := by
  obtain ⟨hr, hheap1, hM1, hm1, hsome1, hslot1, hget1⟩ :=
    create_disk_success s dev name fx s1 r hwf hcd
  have hphys : rtems_disk_create_phys s dev bs bc (some hId) capRet capVal
      ddata name fx
      = (heapModify s1 r fun d =>
          { d with phys_dev := r, start := 0, size := bc, block_size := bs,
                   media_block_size := bs, ioctl := (some hId).getD 0,
                   driver_data := ddata,
                   capabilities := if capRet < 0 then 0 else capVal },
         RTEMS_SUCCESSFUL) := by
    simp only [rtems_disk_create_phys]
    rw [if_neg (by simp), if_neg hbs, hcd]
  rw [hphys]
  have hget2 : heapGet (heapModify s1 r fun d =>
      { d with phys_dev := r, start := 0, size := bc, block_size := bs,
               media_block_size := bs, ioctl := (some hId).getD 0,
               driver_data := ddata,
               capabilities := if capRet < 0 then 0 else capVal }) r
      = some { blankDisk dev name with
          phys_dev := r, start := 0, size := bc, block_size := bs,
          media_block_size := bs, ioctl := (some hId).getD 0,
          driver_data := ddata,
          capabilities := if capRet < 0 then 0 else capVal } :=
    heapGet_heapModify_self s1 r _ (blankDisk dev name) hget1
  have hob : rtems_disk_obtain (heapModify s1 r fun d =>
      { d with phys_dev := r, start := 0, size := bc, block_size := bs,
               media_block_size := bs, ioctl := (some hId).getD 0,
               driver_data := ddata,
               capabilities := if capRet < 0 then 0 else capVal }) dev
      = (some r, heapModify (heapModify s1 r fun d =>
          { d with phys_dev := r, start := 0, size := bc, block_size := bs,
                   media_block_size := bs, ioctl := (some hId).getD 0,
                   driver_data := ddata,
                   capabilities := if capRet < 0 then 0 else capVal }) r
          fun d => { d with uses := incMod d.uses }) := by
    unfold rtems_disk_obtain
    refine get_disk_entry_found _ dev r _ ?_ ?_ ?_ ?_ hget2 rfl
    · rw [heapModify_disktab_size]
      exact hM1
    · rw [tabGet_heapModify]
      exact hm1
    · rw [tabGet_heapModify]
      exact hsome1
    · rw [slotGetAt_heapModify]
      exact hslot1
  have hfinal := heapGet_heapModify_self _ r
    (fun d => { d with uses := incMod d.uses }) _ hget2
  refine ⟨rfl, ?_, ?_, ?_, ?_⟩
  · rw [hob]
  · rw [hob]
    simp only []
    rw [hfinal]
    rfl
  · rw [hob]
    simp only []
    rw [hfinal]
    rfl
  · rw [hob]
    simp only []
    rw [hfinal]
    rfl

/-- C8 witness: the concrete run on the fresh registry at identifier
(0, 0) with block size 512. -/
theorem C8_witness :
    (rtems_disk_create_phys initState 0 512 1000 (some 1) 0 0 0 none
        allOk).2 = RTEMS_SUCCESSFUL ∧
    (rtems_disk_obtain (rtems_disk_create_phys initState 0 512 1000 (some 1)
        0 0 0 none allOk).1 0).1 = some 0 ∧
    (heapGet (rtems_disk_obtain (rtems_disk_create_phys initState 0 512 1000
        (some 1) 0 0 0 none allOk).1 0).2 0).map DiskDevice.block_size
      = some 512 ∧
    (heapGet (rtems_disk_obtain (rtems_disk_create_phys initState 0 512 1000
        (some 1) 0 0 0 none allOk).1 0).2 0).map DiskDevice.phys_dev
      = some 0 ∧
    (heapGet (rtems_disk_obtain (rtems_disk_create_phys initState 0 512 1000
        (some 1) 0 0 0 none allOk).1 0).2 0).map DiskDevice.uses = some 1 :=
  C8_create_phys_then_obtain initState 0 512 1000 1 0 0 0 none allOk
    (create_disk initState 0 none allOk).1 0 (by decide) (by decide)
    (by decide)

theorem decMod_incMod (u : Nat) (h : u < U32) : decMod (incMod u) = u := by
  unfold decMod incMod U32 at *
  split_ifs <;> omega

theorem uses_update_eta (d : DiskDevice) :
    ({ d with uses := d.uses } : DiskDevice) = d := rfl

/-- C7.  For every identifier whose slot holds a non-deleted descriptor, a
second create over it fails with RTEMS_RESOURCE_IN_USE (the SlotOccupied
status of the specification) and leaves the first descriptor, its use
count, and the slot untouched.  The first conjunct shows the shared helper
create_disk returns RTEMS_RESOURCE_IN_USE with the whole state unchanged;
the second lifts this to rtems_disk_create_phys (valid arguments); the
third lifts it to rtems_disk_create_log reaching the slot check with a live
physical parent and a valid range: the status is RTEMS_RESOURCE_IN_USE and
both the occupied slot and its descriptor read exactly as before. -/
theorem C7_second_create_fails_slot_occupied (s : DiskState) (dev : DevT)
    (r : DiskRef) (dd : DiskDevice)
    (hM : majorOf dev < s.disktab_size)
    (hm : minorOf dev < (tabGet s (majorOf dev)).size)
    (hsome : (tabGet s (majorOf dev)).minor.isSome = true)
    (hslot : slotGetAt s (majorOf dev) (minorOf dev) = some r)
    (hdd : heapGet s r = some dd) (hdel : dd.deleted = false)
    (huses : dd.uses < U32) :
    (∀ name fx, create_disk s dev name fx = (s, RTEMS_RESOURCE_IN_USE, none)) ∧
    (∀ bs bc hId capRet capVal ddata name fx, bs ≠ 0 →
      rtems_disk_create_phys s dev bs bc (some hId) capRet capVal ddata
        name fx = (s, RTEMS_RESOURCE_IN_USE)) ∧
    (∀ phys bb c name fx pr pdd,
      (get_disk_entry s phys).1 = some pr →
      heapGet s pr = some pdd →
      pdd.phys_dev = pr →
      pdd.uses < U32 →
      ¬(pdd.size ≤ bb ∨ (bb + c) % U32 ≤ bb ∨ pdd.size < (bb + c) % U32) →
      (rtems_disk_create_log s dev phys bb c name fx).2
          = RTEMS_RESOURCE_IN_USE ∧
      slotGetAt (rtems_disk_create_log s dev phys bb c name fx).1
          (majorOf dev) (minorOf dev) = some r ∧
      heapGet (rtems_disk_create_log s dev phys bb c name fx).1 r
          = some dd) := by
  have hocc : ∀ name fx,
      create_disk s dev name fx = (s, RTEMS_RESOURCE_IN_USE, none) :=
    fun name fx => create_disk_occupied s dev name fx r hM hm hsome hslot
  refine ⟨hocc, ?_, ?_⟩
  · intro bs bc hId capRet capVal ddata name fx hbs
    simp only [rtems_disk_create_phys]
    rw [if_neg (by simp), if_neg hbs, hocc name fx]
  · intro phys bb c name fx pr pdd hfind hpdd hphysdisk husesP hrange
    rcases get_disk_entry_cases s phys with ⟨r0, dd0, heq, hget0, _⟩ | heq2
    · have hr0 : r0 = pr := by
        rw [heq] at hfind
        exact Option.some.inj hfind
      subst hr0
      have hdd0 : pdd = dd0 := by
        rw [hpdd] at hget0
        exact Option.some.inj hget0
      subst hdd0
      have hpdd1 : heapGet (heapModify s r0 fun d =>
          { d with uses := incMod d.uses }) r0
          = some { pdd with uses := incMod pdd.uses } :=
        heapGet_heapModify_self s r0 _ pdd hpdd
      have hcd1 : create_disk (heapModify s r0 fun d =>
            { d with uses := incMod d.uses }) dev name fx
          = (heapModify s r0 fun d => { d with uses := incMod d.uses },
             RTEMS_RESOURCE_IN_USE, none) := by
        refine create_disk_occupied _ dev name fx r ?_ ?_ ?_ ?_
        · rw [heapModify_disktab_size]
          exact hM
        · rw [tabGet_heapModify]
          exact hm
        · rw [tabGet_heapModify]
          exact hsome
        · rw [slotGetAt_heapModify]
          exact hslot
      have hlog : rtems_disk_create_log s dev phys bb c name fx
          = (heapModify (heapModify s r0 fun d =>
              { d with uses := incMod d.uses }) r0
              fun d => { d with uses := decMod d.uses },
             RTEMS_RESOURCE_IN_USE) := by
        simp only [rtems_disk_create_log]
        rw [heq]
        simp only []
        rw [hpdd1]
        simp only []
        rw [if_neg ?hphy]
        case hphy =>
          unfold is_physical_disk
          simp only []
          rw [show ({ pdd with uses := incMod pdd.uses } :
              DiskDevice).phys_dev = pdd.phys_dev from rfl, hphysdisk]
          simp
        rw [if_neg ?hrg]
        case hrg =>
          exact hrange
        rw [hcd1]
      rw [hlog]
      refine ⟨rfl, ?_, ?_⟩
      · simp only []
        rw [slotGetAt_heapModify, slotGetAt_heapModify]
        exact hslot
      · simp only []
        by_cases he : r = r0
        · subst he
          have := heapGet_heapModify_self _ r
            (fun d => { d with uses := decMod d.uses }) _ hpdd1
          have hddpdd : pdd = dd := by
            rw [hdd] at hpdd
            exact (Option.some.inj hpdd).symm
          subst hddpdd
          rw [this]
          simp only [Option.some.injEq]
          show ({ pdd with uses := decMod (incMod pdd.uses) } : DiskDevice)
            = pdd
          rw [decMod_incMod pdd.uses huses]
        · rw [heapGet_heapModify_ne _ r0 r _ he,
            heapGet_heapModify_ne _ r0 r _ he]
          exact hdd
    · rw [heq2] at hfind
      exact absurd hfind (by simp)

theorem heapGet_some_lt (s : DiskState) (r : DiskRef) (d : DiskDevice)
    (h : heapGet s r = some d) : r < s.heap.length := by
  unfold heapGet at h
  exact (List.getElem?_eq_some.mp (Option.join_eq_some.mp h)).1

theorem incMod_small (u : Nat) (h : u + 1 < U32) : incMod u = u + 1 := by
  unfold incMod U32 at *
  omega

/-- C6.  rtems_disk_create_log changes the use count of the descriptor
located at the physical identifier by exactly one when and only when it
succeeds.  When the lookup finds nothing the call fails with
RTEMS_INVALID_ID and the state is returned unchanged; when it finds a
descriptor (reference r holding dd), the descriptor after the call is dd
with use count dd.uses + 1 on success, and exactly dd again on every
failing path (located descriptor not physical, invalid range, slot
occupied, allocation or name-registration failure). -/
theorem C6_create_log_use_count (s : DiskState) (dev phys : DevT)
    (bb c : Nat) (name : Option String) (fx : AllocFx) :
    ((get_disk_entry s phys).1 = none →
      rtems_disk_create_log s dev phys bb c name fx = (s, RTEMS_INVALID_ID)) ∧
    (∀ r dd, (get_disk_entry s phys).1 = some r → heapGet s r = some dd →
      dd.uses + 1 < U32 →
      ((rtems_disk_create_log s dev phys bb c name fx).2 = RTEMS_SUCCESSFUL →
        heapGet (rtems_disk_create_log s dev phys bb c name fx).1 r
          = some { dd with uses := dd.uses + 1 }) ∧
      ((rtems_disk_create_log s dev phys bb c name fx).2 ≠ RTEMS_SUCCESSFUL →
        heapGet (rtems_disk_create_log s dev phys bb c name fx).1 r
          = some dd)) := by
  constructor
  · intro hnone
    rcases get_disk_entry_cases s phys with ⟨r0, dd0, heq, _, _⟩ | heq2
    · rw [heq] at hnone
      exact absurd hnone (by simp)
    · simp only [rtems_disk_create_log]
      rw [heq2]
  · intro r dd hfind hdd husm1
    have huses : dd.uses < U32 := by unfold U32 at *; omega
    rcases get_disk_entry_cases s phys with ⟨r0, dd0, heq, hget0, hdel0⟩ | heq2
    · have hr0 : r0 = r := by
        rw [heq] at hfind
        exact Option.some.inj hfind
      subst hr0
      have hdd0 : dd0 = dd := by
        rw [hdd] at hget0
        exact (Option.some.inj hget0).symm
      subst hdd0
      have hdd1 : heapGet (heapModify s r0 fun d =>
          { d with uses := incMod d.uses }) r0
          = some { dd0 with uses := incMod dd0.uses } :=
        heapGet_heapModify_self s r0 _ dd0 hdd
      have hrlt : r0 < (heapModify s r0 fun d =>
          { d with uses := incMod d.uses }).heap.length :=
        heapGet_some_lt _ r0 _ hdd1
      have hrestore : heapGet (heapModify (heapModify s r0 fun d =>
            { d with uses := incMod d.uses }) r0
            fun d => { d with uses := decMod d.uses }) r0 = some dd0 := by
        rw [heapGet_heapModify_self _ r0 _ _ hdd1]
        simp only [Option.some.injEq]
        show ({ dd0 with uses := decMod (incMod dd0.uses) } : DiskDevice)
          = dd0
        rw [decMod_incMod dd0.uses huses]
      simp only [rtems_disk_create_log]
      rw [heq]
      simp only []
      rw [hdd1]
      simp only []
      by_cases hphy : is_physical_disk r0 { dd0 with uses := incMod dd0.uses }
          = false
      · rw [if_pos hphy]
        exact ⟨fun hc => absurd hc (by simp), fun _ => hrestore⟩
      · rw [if_neg hphy]
        by_cases hrg : ({ dd0 with uses := incMod dd0.uses } :
            DiskDevice).size ≤ bb ∨ (bb + c) % U32 ≤ bb ∨
            ({ dd0 with uses := incMod dd0.uses } : DiskDevice).size
              < (bb + c) % U32
        · rw [if_pos hrg]
          exact ⟨fun hc => absurd hc (by simp), fun _ => hrestore⟩
        · rw [if_neg hrg]
          have hsh := create_disk_shape (heapModify s r0 fun d =>
            { d with uses := incMod d.uses }) dev name fx
          rcases hcd : create_disk (heapModify s r0 fun d =>
              { d with uses := incMod d.uses }) dev name fx
            with ⟨s2, sc2, rd2⟩
          rw [hcd] at hsh
          simp only [] at hsh
          rcases hsh with ⟨hrdnone, hscne, hheap2⟩ | ⟨hsc, hrdsome, hheap2⟩
          · subst hrdnone
            simp only []
            refine ⟨fun hc => absurd hc hscne, fun _ => ?_⟩
            rw [show heapGet (heapModify s2 r0 fun d =>
                { d with uses := decMod d.uses }) r0
              = some dd0 from ?_]
            have hg2 : heapGet s2 r0 = some { dd0 with uses := incMod dd0.uses }
              := by
              rw [heapGet_congr_heap s2 (heapModify s r0 fun d =>
                { d with uses := incMod d.uses }) r0 hheap2]
              exact hdd1
            rw [heapGet_heapModify_self _ r0 _ _ hg2]
            simp only [Option.some.injEq]
            show ({ dd0 with uses := decMod (incMod dd0.uses) } : DiskDevice)
              = dd0
            rw [decMod_incMod dd0.uses huses]
          · subst hrdsome
            simp only []
            have hg2 : heapGet s2 r0 = some { dd0 with uses := incMod dd0.uses }
              := by
              unfold heapGet
              rw [hheap2, List.getElem?_append, if_pos hrlt]
              exact hdd1
            have hne : r0 ≠ (heapModify s r0 fun d =>
                { d with uses := incMod d.uses }).heap.length :=
              Nat.ne_of_lt hrlt
            refine ⟨fun _ => ?_, fun hc => absurd rfl hc⟩
            rw [heapGet_heapModify_ne s2 _ r0 _ hne, hg2,
              incMod_small dd0.uses husm1]
    · rw [heq2] at hfind
      exact absurd hfind (by simp)

/-- C6 witness: on the one-physical-disk family, a create_log against an
absent physical identifier (5, 0) returns the state unchanged with
RTEMS_INVALID_ID, and a successful create_log leaves the physical disk with
use count exactly 1. -/
theorem C6_witness :
    rtems_disk_create_log (physFam 1000) 1 (mkDev 5 0) 0 10 none allOk
      = (physFam 1000, RTEMS_INVALID_ID) ∧
    heapGet (rtems_disk_create_log (physFam 1000) 1 0 0 10 none allOk).1 0
      = some { physDesc 1000 0 with uses := 0 + 1 } := by
  constructor
  · exact (C6_create_log_use_count (physFam 1000) 1 (mkDev 5 0) 0 10 none
      allOk).1 (by decide)
  · exact ((C6_create_log_use_count (physFam 1000) 1 0 0 10 none allOk).2 0
      (physDesc 1000 0) (by decide) (by decide) (by decide)).1 (by decide)

/-- C7 witness: with the slot (0, 0) occupied by the live physical disk,
create_disk, rtems_disk_create_phys and rtems_disk_create_log over the
same identifier all fail with RTEMS_RESOURCE_IN_USE and the occupant is
untouched. -/
theorem C7_witness :
    create_disk (physFam 1000) 0 none allOk
      = (physFam 1000, RTEMS_RESOURCE_IN_USE, none) ∧
    rtems_disk_create_phys (physFam 1000) 0 512 1000 (some 1) 0 0 0 none
      allOk = (physFam 1000, RTEMS_RESOURCE_IN_USE) ∧
    (rtems_disk_create_log (physFam 1000) 0 0 0 10 none allOk).2
      = RTEMS_RESOURCE_IN_USE ∧
    heapGet (rtems_disk_create_log (physFam 1000) 0 0 0 10 none allOk).1 0
      = some (physDesc 1000 0) := by
  have h := C7_second_create_fails_slot_occupied (physFam 1000) 0 0
    (physDesc 1000 0) (by decide) (by decide) (by decide) (by decide)
    (by decide) (by decide) (by decide)
  have h3 := h.2.2 0 0 10 none allOk 0 (physDesc 1000 0) (by decide)
    (by decide) (by decide) (by decide) (by decide)
  exact ⟨h.1 none allOk, h.2.1 512 1000 1 0 0 0 none allOk (by decide),
    h3.1, h3.2.2⟩

/-- C9 amended.  On a well-formed state, a successful
create_disk_table_entry call for identifier dev sets the outer capacity to
the larger of twice the old outer capacity and exactly-fit (major + 1) when
the major dimension grows, and sets the inner capacity of that major to
the larger of twice the old inner capacity and exactly-fit (minor + 1),
except that an inner table growing from capacity zero (including the table
of a freshly created major entry) starts at the larger of
DISKTAB_INITIAL_SIZE = 8 and exactly-fit.  Whether the call succeeds or
fails at either allocation point, every slot of the table reads exactly as
before the call: previously installed entries are preserved at their index,
newly added slots are empty, and a failed growth corrupts nothing. -/
theorem C9_growth_spec (s : DiskState) (dev : DevT) (gM gm : Bool)
    (hwf : WF s) :
    ((create_disk_table_entry s dev gM gm).2 = true →
      (create_disk_table_entry s dev gM gm).1.disktab_size
        = (if s.disktab_size ≤ majorOf dev
           then max (2 * s.disktab_size) (majorOf dev + 1)
           else s.disktab_size) ∧
      (tabGet (create_disk_table_entry s dev gM gm).1 (majorOf dev)).size
        = (if (if s.disktab_size ≤ majorOf dev then (⟨none, 0⟩ : DiskTable)
              else tabGet s (majorOf dev)).minor.isSome = true
            ∧ minorOf dev < (if s.disktab_size ≤ majorOf dev
              then (⟨none, 0⟩ : DiskTable)
              else tabGet s (majorOf dev)).size
           then (if s.disktab_size ≤ majorOf dev
              then (⟨none, 0⟩ : DiskTable)
              else tabGet s (majorOf dev)).size
           else if (if s.disktab_size ≤ majorOf dev
              then (⟨none, 0⟩ : DiskTable)
              else tabGet s (majorOf dev)).size = 0
           then max DISKTAB_INITIAL_SIZE (minorOf dev + 1)
           else max (2 * (if s.disktab_size ≤ majorOf dev
              then (⟨none, 0⟩ : DiskTable)
              else tabGet s (majorOf dev)).size) (minorOf dev + 1))) ∧
    (∀ M2 m2, slotGetAt (create_disk_table_entry s dev gM gm).1 M2 m2
      = slotGetAt s M2 m2) := by
  have hpres := (create_disk_table_entry_spec s dev gM gm hwf).2.2.2.1
  refine ⟨?_, hpres⟩
  intro hok
  simp only [create_disk_table_entry] at hok ⊢
  rcases hg : growMajorStage s (majorOf dev) gM with _ | s1
  · rw [hg] at hok
    exact absurd hok (by simp)
  · rw [hg] at hok
    obtain ⟨g1, g2, g3, g4, g5, g6, g7, g8⟩ :=
      growMajorStage_spec s (majorOf dev) gM s1 hwf hg
    obtain ⟨n1, n2, n3, n4, n5, n6, n7⟩ :=
      growMinorStage_spec s1 (majorOf dev) (minorOf dev) gm g3 g4
    obtain ⟨hex, hsz⟩ := n6 hok
    have htg1 : tabGet s1 (majorOf dev)
        = (if s.disktab_size ≤ majorOf dev then (⟨none, 0⟩ : DiskTable)
           else tabGet s (majorOf dev)) := by
      by_cases hc : s.disktab_size ≤ majorOf dev
      · rw [if_pos hc]
        exact g7 (majorOf dev) hc
      · rw [if_neg hc]
        exact g6 (majorOf dev) (by omega)
    constructor
    · rw [n4, g8]
    · rw [hsz, htg1]

/-- C9 witness: on the fresh registry at identifier (0, 0) the call
succeeds, the outer capacity stays 8, the inner capacity becomes 8 (the
initial size, since the old inner capacity was 0), and the slot (0, 0)
reads as before. -/
theorem C9_witness :
    (create_disk_table_entry initState 0 true true).2 = true ∧
    (create_disk_table_entry initState 0 true true).1.disktab_size = 8 ∧
    (tabGet (create_disk_table_entry initState 0 true true).1 0).size = 8 ∧
    slotGetAt (create_disk_table_entry initState 0 true true).1 0 0
      = slotGetAt initState 0 0 := by
  have h := C9_growth_spec initState 0 true true (by decide)
  refine ⟨by decide, ?_, ?_, h.2 0 0⟩
  · exact ((h.1 (by decide)).1).trans (by decide)
  · exact ((h.1 (by decide)).2).trans (by decide)

end DiskDevs
